/-
Verification of the `wind` event-driven network core against its
natural-language specification.

The Python sources are shallowly embedded: byte strings become `List Nat`
(one `Nat` per byte value), deques of chunks become `List (List Nat)` with
the left end of the deque at the head of the list, Python `dict`s become
insertion-ordered association lists, fallible code returns `Except`, and
the behaviour of a raw file descriptor is supplied as an explicit oracle
(one response per write attempt).  Every definition is translated from the
source files under `wind/`; doc comments cite the function embedded.
-/

import Mathlib

namespace Wind

/-- Byte strings (Python `bytes`) are modelled as lists of byte values. -/
abbrev Chunk := List Nat

namespace FlexibleDeque

/-- Joins the gathered chunks, mirroring `b''.join(chunks)` in
`FlexibleDeque.gather` (wind/datastructures.py).  In the `left=True` mode the
source appends each popped chunk to the right of `chunks`, in the
`left=False` mode it appends to the left; the accumulator below always
appends on the right, so in the right-hand mode the accumulated list is in
reverse byte order and is reversed before joining. -/
def joinChunks (left : Bool) (chunks : List Chunk) : Chunk :=
  if left then chunks.flatten else chunks.reverse.flatten

/-- The `while self:` loop of `FlexibleDeque.gather` (wind/datastructures.py,
lines 26-60).  `counted` and `chunks` are the loop variables; the third
argument is the remaining deque, with the end being popped from at its head
(the caller passes the deque itself for `left=True` and its reversal for
`left=False`).  In the `left=False` reading, the returned list is the final
deque with its right end at the head (the caller reverses it back).

The source computes `slash = counted + len_ - chunk_size` and, for the left
mode, `slash = len_ - slash`; both subtractions are exact here because the
branch guarantees `counted + len_ >= chunk_size`, and on every reachable
call `counted <= chunk_size` holds (so Python never sees a negative slice
index and `Nat` subtraction agrees with the source). -/
def gatherLoop (chunk_size : Nat) (left : Bool) (counted : Nat)
    (chunks : List Chunk) : List Chunk → List Chunk
  | [] => []
  | data :: rest =>
    let len := data.length
    if counted + len < chunk_size then
      if rest.isEmpty then
        [joinChunks left (chunks ++ [data])]
      else
        gatherLoop chunk_size left (counted + len) (chunks ++ [data]) rest
    else
      let slash := counted + len - chunk_size
      if left then
        let slash2 := len - slash
        joinChunks left (chunks ++ [data.take slash2]) ::
          (if slash2 < len then data.drop slash2 :: rest else rest)
      else
        joinChunks left (chunks ++ [data.drop slash]) ::
          (if slash < len then data.take slash :: rest else rest)

/-- `FlexibleDeque.gather(chunk_size, left)` (wind/datastructures.py).
The deque is a list with its left end at the head.  For `left=False` the
loop pops from the right end, which is the head of the reversed list; the
final deque is the reversal of the loop's result. -/
def gather (q : List Chunk) (chunk_size : Nat) (left : Bool) : List Chunk :=
  if left then gatherLoop chunk_size true 0 [] q
  else (gatherLoop chunk_size false 0 [] q.reverse).reverse

end FlexibleDeque

namespace CaseInsensitiveDict

/-- `CaseInsensitiveDict._transform` (wind/datastructures.py lines
128-129): `key.lower()`, restricted here to `Char.toLower` per character
(exact for the ASCII header keys the server handles). -/
def pyLower (s : String) : String := ⟨s.data.map Char.toLower⟩

/-- The backing `_store` dict of `FlexibleDict` (wind/datastructures.py
lines 82-86): an insertion-ordered association list from the transformed
key to the `(key, value)` tuple stored by `__setitem__`. -/
abbrev Store (V : Type) := List (String × String × V)

/-- `dict.__setitem__` on the insertion-ordered `_store`: an existing key
keeps its position and receives the new tuple; a new key is appended. -/
def storeSet {V : Type} : Store V → String → String × V → Store V
  | [], tk, kv => [(tk, kv)]
  | (tk', kv') :: rest, tk, kv =>
    if tk' = tk then (tk', kv) :: rest else (tk', kv') :: storeSet rest tk kv

/-- `dict.get` on `_store`: `none` models Python `None` for an absent
key. -/
def storeGet {V : Type} : Store V → String → Option (String × V)
  | [], _ => none
  | (tk', kv) :: rest, tk => if tk' = tk then some kv else storeGet rest tk

/-- `FlexibleDict.__setitem__` with the case-insensitive transform
(wind/datastructures.py lines 98-99):
`self._store[self._transform(key)] = (key, value)` — note the tuple holds
the key exactly as passed to THIS call. -/
def setitem {V : Type} (store : Store V) (key : String) (value : V) :
    Store V :=
  storeSet store (pyLower key) (key, value)

/-- `FlexibleDict.__getitem__` (lines 91-96): `None` when the transformed
key is absent, else the second component of the stored tuple.
(`CaseInsensitiveDict.get` returns its default exactly when this is
`None`.) -/
def getitem {V : Type} (store : Store V) (key : String) : Option V :=
  (storeGet store (pyLower key)).map (fun kv => kv.2)

/-- `CaseInsensitiveDict.__iter__` (lines 131-132): yields the ORIGINAL
key of each stored `(key, value)` tuple, in store order. -/
def iterKeys {V : Type} (store : Store V) : List String :=
  store.map (fun e => e.2.1)

end CaseInsensitiveDict

namespace PollEvents

/-- `PollEvents.READ` (wind/driver.py line 34). -/
def READ : Nat := 0x001

/-- `PollEvents.WRITE` (wind/driver.py line 35). -/
def WRITE : Nat := 0x004

/-- `PollEvents.ERROR` (wind/driver.py line 36). -/
def ERROR : Nat := 0x008

end PollEvents

/-- The driver kinds probed by `pick` (wind/driver.py lines 16-30). -/
inductive DriverKind
  | select
  | poll
  | epoll
  | kqueue
deriving DecidableEq

/-- Which multiplexing facilities the host's `select` module exposes
(the `hasattr(select, x)` probes in `pick`). -/
structure Host where
  hasSelect : Bool
  hasPoll : Bool
  hasEpoll : Bool
  hasKqueue : Bool

/-- `hasattr(select, x)` for one candidate name. -/
def Host.exposes (h : Host) : DriverKind → Bool
  | .select => h.hasSelect
  | .poll => h.hasPoll
  | .epoll => h.hasEpoll
  | .kqueue => h.hasKqueue

/-- `pick()` (wind/driver.py lines 16-30): filters the candidate list
`['select', 'poll', 'epoll', 'kqueue']` by availability and takes the last
remaining element (`[-1]`); on an empty filter result the `IndexError`
is converted to `WindException('No available event driver')`. -/
def pick (h : Host) : Except String DriverKind :=
  match ([DriverKind.select, .poll, .epoll, .kqueue].filter
      h.exposes).getLast? with
  | some driver => .ok driver
  | none => .error "No available event driver"

/-- The two edge-triggered facilities (Linux `epoll`, BSD `kqueue`). -/
def DriverKind.edgeTriggered : DriverKind → Bool
  | .epoll => true
  | .kqueue => true
  | _ => false

/-- `PollError` raised by driver registration (wind/exceptions.py). -/
inductive PollErr
  | alreadyRegistered
  | undefinedEvent
deriving DecidableEq

/-- Python runtime errors that are not wind exceptions. -/
inductive PyErr
  | keyError
deriving DecidableEq

/-- The three fd sets of the `Select` driver (wind/driver.py lines
95-99), modelled as duplicate-free lists. -/
structure SelectDriver where
  read_fds : List Nat
  write_fds : List Nat
  error_fds : List Nat
deriving DecidableEq

namespace Select

/-- `Select.fds` (wind/driver.py lines 143-145): the chain of the three
sets. -/
def fds (s : SelectDriver) : List Nat :=
  s.read_fds ++ s.write_fds ++ s.error_fds

/-- `Select.register` (wind/driver.py lines 101-110).  `set.add` leaves
the set unchanged when the fd is already present (`List.insert`). -/
def register (s : SelectDriver) (fd : Nat) (event_mask : Nat) :
    Except PollErr SelectDriver :=
  if fd ∈ fds s then .error .alreadyRegistered
  else if event_mask &&& PollEvents.READ ≠ 0 ∨
      event_mask &&& PollEvents.ERROR ≠ 0 then
    .ok { s with read_fds := s.read_fds.insert fd }
  else if event_mask &&& PollEvents.WRITE ≠ 0 then
    .ok { s with write_fds := s.write_fds.insert fd }
  else .error .undefinedEvent

/-- `Select.unregister` (wind/driver.py lines 112-115): three
`set.discard` calls, which never raise; an absent fd leaves each set
untouched. -/
def unregister (s : SelectDriver) (fd : Nat) : SelectDriver :=
  { read_fds := s.read_fds.erase fd
    write_fds := s.write_fds.erase fd
    error_fds := s.error_fds.erase fd }

end Select

/-- The `_events` dict of the `Kqueue` driver (wind/driver.py line 162):
fd → registered event mask, insertion ordered. -/
structure KqueueDriver where
  events : List (Nat × Nat)
deriving DecidableEq

namespace Kqueue

/-- `dict.__getitem__`-style lookup on `_events`. -/
def dictLookup : List (Nat × Nat) → Nat → Option Nat
  | [], _ => none
  | (k, v) :: rest, fd => if k = fd then some v else dictLookup rest fd

/-- `dict.pop(fd, None)`: removes the entry when present, never raises. -/
def dictPop : List (Nat × Nat) → Nat → List (Nat × Nat)
  | [], _ => []
  | (k, v) :: rest, fd => if k = fd then rest else (k, v) :: dictPop rest fd

/-- `Kqueue.fds` (wind/driver.py lines 228-229): `self._events.keys()`. -/
def fds (k : KqueueDriver) : List Nat := k.events.map Prod.fst

/-- `Kqueue.register` (wind/driver.py lines 176-181): raises `PollError`
on a tracked fd, otherwise issues `control(fd, mask, KQ_EV_ADD)` (an OS
call with no model state) and records the mask. -/
def register (k : KqueueDriver) (fd : Nat) (event_mask : Nat) :
    Except PollErr KqueueDriver :=
  if fd ∈ fds k then .error .alreadyRegistered
  else .ok { events := k.events ++ [(fd, event_mask)] }

/-- `Kqueue.unregister` (wind/driver.py lines 183-185):
`self.control(fd, self._events[fd], select.KQ_EV_DELETE)` subscripts the
`_events` dict BEFORE the tolerant `self._events.pop(fd, None)` runs, so
an untracked fd raises `KeyError`. -/
def unregister (k : KqueueDriver) (fd : Nat) : Except PyErr KqueueDriver :=
  match dictLookup k.events fd with
  | none => .error .keyError
  | some _ => .ok { events := dictPop k.events fd }

end Kqueue

namespace PollLooper

/-- Outcome of draining the pending-event buffer in one iteration of
`PollLooper.run` (wind/looper.py lines 145-156): either every popped
event was dispatched to a handler, or an uncaught `TypeError` aborted the
loop (listing the events dispatched before it). -/
inductive DispatchOutcome
  | finished (dispatched : List (Nat × Nat))
  | typeErrorRaised (dispatched : List (Nat × Nat))
deriving DecidableEq

/-- The `while self._events:` drain loop of `PollLooper.run`
(wind/looper.py lines 146-156).  `handlers` is the key set of
`self._handlers` (handlers are abstracted: a present handler is invoked
and recorded).  When `self._handlers.get(fd, None)` returns `None`, the
body of `if handler is None:` is only `pass`, so control falls through to
`handler(fd, event_mask)`, which calls `None` and raises `TypeError`; the
`except TypeError:` clause re-raises it, aborting `run`.  (`dict.popitem`
order is modelled as list order; nothing below depends on it.) -/
def drainEvents (handlers : List Nat) : List (Nat × Nat) → DispatchOutcome
  | [] => .finished []
  | (fd, event_mask) :: rest =>
    if fd ∈ handlers then
      match drainEvents handlers rest with
      | .finished ds => .finished ((fd, event_mask) :: ds)
      | .typeErrorRaised ds => .typeErrorRaised ((fd, event_mask) :: ds)
    else .typeErrorRaised []

end PollLooper

namespace BaseStream

/-- `self._write_chunk_size` as set in `BaseStream.__init__`
(wind/web/stream.py line 71): `128 * 1024`. -/
def write_chunk_size : Nat := 128 * 1024

/-- `BaseStream._to_write_buffer` (wind/web/stream.py lines 289-297):
`for i in range(0, len(chunk), self._write_chunk_size):
self._write_buffer.append(chunk[0:i + self._write_chunk_size])`.
`List.range' 0 n wcs` is Python's `range(0, len(chunk), wcs)`, with
`n = ceil(len(chunk) / wcs)` elements.  Note that the source slices every
block from index `0`, not from `i`. -/
def to_write_buffer (wcs : Nat) (chunk : Chunk) : List Chunk :=
  if chunk.isEmpty then []
  else (List.range' 0 ((chunk.length + wcs - 1) / wcs) wcs).map
    (fun i => chunk.take (i + wcs))

/-- `BaseStream._attach_stream_handler` (wind/web/stream.py lines 404-420)
as a transition of the recorded `_handler_event`: a closed stream returns
unchanged; a first attachment records `event_mask | PollEvents.ERROR`; a
later call widens the recorded mask by OR when the new mask adds bits. -/
def attach_stream_handler (closed : Bool) (handler_event : Option Nat)
    (event_mask : Nat) : Option Nat :=
  if closed then handler_event
  else
    match handler_event with
    | none => some (event_mask ||| PollEvents.ERROR)
    | some ev =>
      if ev &&& event_mask = 0 then some (ev ||| event_mask) else some ev

/-- One response of the underlying fd to a `_write_to_fd` attempt. -/
inductive FdResp
  | wrote (num_bytes : Nat)
  | wouldBlock
  | connReset
  | otherErr
deriving DecidableEq

/-- The write-relevant state of a `BaseStream` (wind/web/stream.py
`__init__`, lines 61-88).  `write_callback` records whether
`self._write_callback` is set; `write_callback_runs` is a ghost counter of
completed write-callback invocations. -/
structure WState where
  write_buffer : List Chunk
  frozen : Bool
  write_callback : Bool
  handler_event : Option Nat
  is_opened : Bool
  write_callback_runs : Nat
deriving DecidableEq

/-- A fresh stream right after `BaseStream.__init__` (which calls
`open()`). -/
def initState : WState :=
  { write_buffer := [], frozen := false, write_callback := false,
    handler_event := none, is_opened := true, write_callback_runs := 0 }

/-- `BaseStream.close` with `_clear` (wind/web/stream.py lines 93-107):
drops the reactor handler, the pending callbacks and the buffers, then
marks the stream closed.  (The close callback is never set in the states
reached below, so `_run_close_callback` does nothing.) -/
def close (s : WState) : WState :=
  if s.is_opened then
    { write_buffer := [], frozen := s.frozen, write_callback := false,
      handler_event := none, is_opened := false,
      write_callback_runs := s.write_callback_runs }
  else s

/-- `self._run_callback(self._pop_callback(read=False), written)`
(wind/web/stream.py lines 286-287, 306-352): pops the write callback and
invokes it when present.  The `written` argument only feeds the callback
and is not tracked. -/
def run_write_callback (s : WState) : WState :=
  if s.write_callback then
    { s with
      write_callback := false
      write_callback_runs := s.write_callback_runs + 1 }
  else s

/-- The `while self._write_buffer:` loop of `_process_write`
(wind/web/stream.py lines 260-281).  `fd` supplies one response per
`_write_to_fd` attempt (an exhausted oracle simply ends the loop; every
theorem below supplies enough responses).  On a successful write of
`num_bytes > 0` the source runs `self._write_buffer.gather(num_bytes)`
then `popleft()`; `num_bytes == 0` and `EWOULDBLOCK` freeze the buffer and
break; `ECONNRESET` closes the stream and breaks; any other socket error
becomes an uncaught `StreamError` (`.error`). -/
def write_loop (fd : List FdResp) (s : WState) : Except Unit WState :=
  match fd with
  | [] => .ok s
  | resp :: rest =>
    if s.write_buffer.isEmpty then .ok s
    else
      match resp with
      | .wrote num_bytes =>
        if num_bytes = 0 then .ok { s with frozen := true }
        else
          let buffer := FlexibleDeque.gather s.write_buffer num_bytes true
          write_loop rest
            { s with frozen := false, write_buffer := buffer.tail }
      | .wouldBlock => .ok { s with frozen := true }
      | .connReset => .ok (close s)
      | .otherErr => .error ()

/-- `BaseStream._process_write` (wind/web/stream.py lines 254-287).
`is_resume` is the source's `partial` keyword argument — `True` would mark
the resumption call from `_handle_write`, which the source never
successfully makes (see `handle_write`).  After the loop: a non-empty
buffer on a fresh write attaches a WRITE interest; an empty buffer runs
the completion callback. -/
def process_write (s : WState) (chunk : Chunk) (is_resume : Bool)
    (fd : List FdResp) : Except Unit WState :=
  if ¬ s.is_opened then .error ()
  else
    let s0 := if ¬ is_resume then
        { s with write_buffer :=
            s.write_buffer ++ to_write_buffer write_chunk_size chunk }
      else s
    match write_loop fd s0 with
    | .error e => .error e
    | .ok s1 =>
      if ¬ s1.write_buffer.isEmpty ∧ ¬ is_resume then
        .ok { s1 with
              handler_event :=
                attach_stream_handler (!s1.is_opened) s1.handler_event
                  PollEvents.WRITE }
      else if s1.write_buffer.isEmpty then .ok (run_write_callback s1)
      else .ok s1

/-- `BaseStream.write` (wind/web/stream.py lines 247-252): validates and
saves the write callback (modelled as a flag), then
`self._process_write(chunk)`. -/
def write (s : WState) (chunk : Chunk) (fd : List FdResp) :
    Except Unit WState :=
  process_write { s with write_callback := true } chunk false fd

/-- `BaseStream._handle_write` (wind/web/stream.py lines 380-390): the
body calls `self._process_write()` with no argument, but the signature
`_process_write(self, chunk, partial=False)` makes `chunk` required, so
the call raises `TypeError` before `_process_write` begins; the
surrounding `except Exception:` swallows it and calls `self.close()`. -/
def handle_write (s : WState) : WState := close s

/-- `BaseStream.event_handler` (wind/web/stream.py lines 361-378)
receiving a WRITE-only event mask: the READ branch is not taken, the
WRITE branch calls `_handle_write`, and the ERROR branch is literally
`pass`. -/
def on_write_ready (s : WState) : WState := handle_write s

/-- A Python value passed as the `bytes_to_read` argument of
`read_bytes`. -/
inductive PyVal
  | int (i : Int)
  | str (s : String)
  | pyNone
deriving DecidableEq

/-- `isinstance(bytes_to_read, int)`. -/
def isinstance_int : PyVal → Bool
  | .int _ => true
  | _ => false

/-- The argument validation of `BaseStream.read_bytes` (wind/web/stream.py
lines 128-135): `if not isinstance(bytes_to_read, int): raise
StreamError(...)`.  Any `int` — negative ones included — passes the
check, after which the callback is saved and `_process_read()` starts the
read with `_bytes_to_read` set to it (`.ok i`). -/
def read_bytes (bytes_to_read : PyVal) : Except String Int :=
  match bytes_to_read with
  | .int i => .ok i
  | _ => .error "`read_bytes` can only accept `int` param"

end BaseStream

namespace HTTPHandler

/-- Prefix test on character lists (`bytes.startswith`). -/
def isPref : List Char → List Char → Bool
  | [], _ => true
  | _ :: _, [] => false
  | a :: as, b :: bs => a = b && isPref as bs

/-- `s.split(sep, 1)` for a nonempty `sep`: splits at the first occurrence
of `sep`; `none` when `sep` does not occur, in which case Python's
two-name unpacking of the 1-element result raises `ValueError`. -/
def splitFirst (sep : List Char) : List Char → Option (List Char × List Char)
  | [] => none
  | c :: rest =>
    if isPref sep (c :: rest) then some ([], (c :: rest).drop sep.length)
    else
      match splitFirst sep rest with
      | some (pre, post) => some (c :: pre, post)
      | none => none

/-- Python `bytes` whitespace. -/
def isSpaceChar (c : Char) : Bool :=
  c = ' ' || c = '\t' || c = '\n' || c = '\r' || c = '\x0b' || c = '\x0c'

/-- Accumulator loop for `s.split()` (no separator: whitespace runs,
no empty fields). -/
def splitWsAux : List Char → List Char → List (List Char)
  | acc, [] => if acc.isEmpty then [] else [acc.reverse]
  | acc, c :: rest =>
    if isSpaceChar c then
      if acc.isEmpty then splitWsAux [] rest
      else acc.reverse :: splitWsAux [] rest
    else splitWsAux (c :: acc) rest

/-- `s.split()`: the whitespace-run split used on the request line. -/
def splitWs (s : List Char) : List (List Char) := splitWsAux [] s

/-- `s.split(sep)` (all occurrences, empty fields kept).  `fuel` bounds
the recursion; `fuel = s.length` suffices for the nonempty separators used
here because every found occurrence consumes at least one character. -/
def splitAllAux (sep : List Char) : Nat → List Char → List (List Char)
  | 0, s => [s]
  | fuel + 1, s =>
    match splitFirst sep s with
    | none => [s]
    | some (pre, post) => pre :: splitAllAux sep fuel post

/-- `s.split(sep)` with adequate fuel. -/
def splitAll (sep s : List Char) : List (List Char) :=
  splitAllAux sep s.length s

/-- `dict(to_str(raw.split(b': ', 1)) for raw in raw_headers)`
(wind/web/httpmodels.py lines 281-282): each header line is split at the
first `': '`; a line without it yields a 1-element list, on which `dict`
raises `ValueError` (`none`).  (`to_str` is the identity under Python 2
and decodes utf-8 under Python 3; byte content is unchanged either
way.) -/
def headerPairs : List (List Char) → Option (List (List Char × List Char))
  | [] => some []
  | line :: rest =>
    match splitFirst [':', ' '] line with
    | none => none
    | some (k, v) =>
      match headerPairs rest with
      | none => none
      | some ps => some ((k, v) :: ps)

/-- The observable outcome of `HTTPHandler._parse_header`. -/
inductive HeaderOutcome
  | emptyReturn
  | ok (method url version : List Char)
      (headers : List (List Char × List Char))
  | valueError
  | windError
deriving DecidableEq

/-- `HTTPHandler._parse_header` (wind/web/httpmodels.py lines 267-301) up
to the construction of the request fields (the Content-Length /
`read_bytes` continuation is past the point the claim concerns).  The
`try` block's only `except` clause catches `IndexError` and re-raises
`WindException('Invalid header on incoming HTTP request')`
(`.windError`); every failure in the modelled steps, however, is a
`ValueError` — `meta, raw = chunk.split('\r\n', 1)` or
`method, url, version = meta.split()` unpacking the wrong arity, or
`dict(...)` over a pair-less header line — which the clause does not
catch, so it escapes uncaught (`.valueError`). -/
def parse_header (chunk : List Char) : HeaderOutcome :=
  if chunk.isEmpty then .emptyReturn
  else
    match splitFirst ['\r', '\n'] chunk with
    | none => .valueError
    | some (meta, rawHeaders) =>
      match splitWs meta with
      | [method, url, version] =>
        match headerPairs ((splitAll ['\r', '\n'] rawHeaders).filter
            (fun l => !l.isEmpty)) with
        | none => .valueError
        | some headers => .ok method url version headers
      | _ => .valueError

end HTTPHandler

/-- The reachable values of the recorded `_handler_event` of one
`BaseStream`: `None` at `__init__` and after `_clear`, and otherwise the
result of the `_attach_stream_handler` transitions. -/
inductive HandlerEventReachable : Option Nat → Prop
  | init : HandlerEventReachable none
  | clear {ev : Option Nat} : HandlerEventReachable ev →
      HandlerEventReachable none
  | attach {ev : Option Nat} (closed : Bool) (event_mask : Nat) :
      HandlerEventReachable ev →
      HandlerEventReachable
        (BaseStream.attach_stream_handler closed ev event_mask)

end Wind

namespace Wind.FlexibleDeque

lemma length_flatten_reverse (l : List Chunk) :
    l.reverse.flatten.length = l.flatten.length := by
  simp [List.length_flatten, List.map_reverse, List.sum_reverse]

lemma joinChunks_true (c : List Chunk) : joinChunks true c = c.flatten := rfl

lemma joinChunks_false (c : List Chunk) :
    joinChunks false c = c.reverse.flatten := rfl

/-- Invariant of the `left=True` gather loop: as long as the target is
reachable from the remaining deque, the loop produces a deque whose first
chunk has exactly `chunk_size` bytes and whose flattening is the already
gathered bytes followed by the remaining bytes. -/
lemma gatherLoop_left_spec (cs : Nat) (q : List Chunk) :
    ∀ (counted : Nat) (chunks : List Chunk),
      q ≠ [] → counted = chunks.flatten.length → counted ≤ cs →
      cs ≤ counted + q.flatten.length →
      gatherLoop cs true counted chunks q ≠ [] ∧
      (gatherLoop cs true counted chunks q).headI.length = cs ∧
      (gatherLoop cs true counted chunks q).flatten =
        chunks.flatten ++ q.flatten := by
  induction q with
  | nil => intro _ _ hq _ _ _; exact absurd rfl hq
  | cons data rest ih =>
    intro counted chunks _ hc hle htot
    by_cases hlt : counted + data.length < cs
    · have hrest : rest ≠ [] := by
        intro h
        subst h
        simp only [List.flatten_cons, List.flatten_nil, List.append_nil,
          List.length_append] at htot
        omega
      obtain ⟨r, rs, hr⟩ := List.exists_cons_of_ne_nil hrest
      have hstep :
          gatherLoop cs true counted chunks (data :: rest) =
            gatherLoop cs true (counted + data.length) (chunks ++ [data])
              rest := by
        subst hr
        simp [gatherLoop, hlt]
      rw [hstep]
      have hc' : counted + data.length = (chunks ++ [data]).flatten.length := by
        simp [hc]
      have h := ih (counted + data.length) (chunks ++ [data]) hrest hc'
        (by omega)
        (by
          simp only [List.flatten_cons, List.length_append] at htot ⊢
          omega)
      refine ⟨h.1, h.2.1, ?_⟩
      rw [h.2.2]
      simp
    · have hge : cs ≤ counted + data.length := by omega
      have hslash2 : data.length - (counted + data.length - cs) =
          cs - counted := by omega
      have hstep :
          gatherLoop cs true counted chunks (data :: rest) =
            joinChunks true (chunks ++ [data.take (cs - counted)]) ::
              (if cs - counted < data.length then
                data.drop (cs - counted) :: rest else rest) := by
        simp [gatherLoop, hlt, hslash2]
      rw [hstep]
      refine ⟨by simp, ?_, ?_⟩
      · simp only [List.headI_cons, joinChunks_true]
        simp only [List.flatten_append, List.flatten_cons, List.flatten_nil,
          List.append_nil, List.length_append, List.length_take]
        omega
      · by_cases hsplit : cs - counted < data.length
        · simp only [if_pos hsplit, joinChunks_true]
          simp only [List.flatten_cons, List.flatten_append, List.flatten_nil,
            List.append_nil]
          rw [List.append_assoc, ← List.append_assoc (data.take (cs - counted)),
            List.take_append_drop]
        · have hall : data.length ≤ cs - counted := by omega
          simp only [if_neg hsplit, joinChunks_true]
          simp [List.take_of_length_le hall]

/-- Invariant of the `left=False` gather loop.  The loop runs over the
reversed deque (head = right end of the real deque); `chunks` is the
accumulator in reversed byte order.  The strict bound `counted < cs`
guarantees the boundary chunk's unsent prefix is pushed back (`slash <
len_`); it holds on every call reached from a top-level target `cs ≥ 1`. -/
lemma gatherLoop_right_spec (cs : Nat) (q : List Chunk) :
    ∀ (counted : Nat) (chunks : List Chunk),
      q ≠ [] → counted = chunks.flatten.length → counted < cs →
      cs ≤ counted + q.flatten.length →
      gatherLoop cs false counted chunks q ≠ [] ∧
      (gatherLoop cs false counted chunks q).headI.length = cs ∧
      (gatherLoop cs false counted chunks q).reverse.flatten =
        q.reverse.flatten ++ chunks.reverse.flatten := by
  induction q with
  | nil => intro _ _ hq _ _ _; exact absurd rfl hq
  | cons data rest ih =>
    intro counted chunks _ hc hlt htot
    by_cases hless : counted + data.length < cs
    · have hrest : rest ≠ [] := by
        intro h
        subst h
        simp only [List.flatten_cons, List.flatten_nil, List.append_nil,
          List.length_append] at htot
        omega
      obtain ⟨r, rs, hr⟩ := List.exists_cons_of_ne_nil hrest
      have hstep :
          gatherLoop cs false counted chunks (data :: rest) =
            gatherLoop cs false (counted + data.length) (chunks ++ [data])
              rest := by
        subst hr
        simp [gatherLoop, hless]
      rw [hstep]
      have hc' : counted + data.length = (chunks ++ [data]).flatten.length := by
        simp [hc]
      have h := ih (counted + data.length) (chunks ++ [data]) hrest hc' hless
        (by
          simp only [List.flatten_cons, List.length_append] at htot ⊢
          omega)
      refine ⟨h.1, h.2.1, ?_⟩
      rw [h.2.2]
      simp
    · have hge : cs ≤ counted + data.length := by omega
      have hput : counted + data.length - cs < data.length := by omega
      have hstep :
          gatherLoop cs false counted chunks (data :: rest) =
            joinChunks false
                (chunks ++ [data.drop (counted + data.length - cs)]) ::
              data.take (counted + data.length - cs) :: rest := by
        simp [gatherLoop, hless, hput]
      rw [hstep]
      refine ⟨by simp, ?_, ?_⟩
      · simp only [List.headI_cons, joinChunks_false]
        rw [length_flatten_reverse]
        simp only [List.flatten_append, List.flatten_cons, List.flatten_nil,
          List.append_nil, List.length_append, List.length_drop]
        omega
      · simp only [joinChunks_false]
        simp only [List.reverse_cons, List.flatten_append, List.flatten_cons,
          List.flatten_nil, List.append_nil, List.reverse_append,
          List.reverse_cons, List.reverse_nil, List.nil_append,
          List.flatten_cons]
        rw [List.append_assoc, ← List.append_assoc (data.take _),
          List.take_append_drop]
        simp [hc]


lemma getLastI_reverse (l : List Chunk) : l.reverse.getLastI = l.headI := by
  cases l with
  | nil => rfl
  | cons a t =>
    rw [List.getLastI_eq_getLast?, List.getLast?_reverse]
    rfl

end Wind.FlexibleDeque

-- Sanity checks against the doctest of `FlexibleDeque.gather` and the
-- examples of test_suite.py (chunk contents abstracted to byte values).
example :
    Wind.FlexibleDeque.gather
      [[1], [2], [3, 3, 3, 3, 3, 3, 3, 3, 3, 3], [4, 4, 4]] 12 true =
      [[1, 2, 3, 3, 3, 3, 3, 3, 3, 3, 3, 3], [4, 4, 4]] := by decide

example :
    Wind.FlexibleDeque.gather
      [[1, 1, 1, 1], [2], [3, 3], [4, 4], [5, 5, 5]] 9 false =
      [[1, 1, 1], [1, 2, 3, 3, 4, 4, 5, 5, 5]] := by decide

example :
    Wind.FlexibleDeque.gather [[1, 1, 1, 1], [2]] 30 false =
      [[1, 1, 1, 1, 2]] := by decide

/-- C1, counterexample: gathering `0` bytes from the right end of the
deque `[b'a']` (a legal target, `0 ≤ 0 ≤ 1`) DROPS the byte: the result is
`[b'']`, so the concatenation of the chunks after the call is not
byte-identical to the original concatenation.  (In the source, `slash =
counted + len_ - chunk_size = 1` equals `len_`, so the `if slash < len_:`
put-back of `data[:slash]` is skipped and the popped chunk is lost.) -/
theorem gather_right_zero_counterexample :
    (Wind.FlexibleDeque.gather [[97]] 0 false).flatten ≠
      ([[97]] : List Wind.Chunk).flatten := by decide

/-- C1, amended: for every deque of byte chunks with concatenation length
`L` and target `k ≤ L`, `gather(k, left=True)` leaves a first chunk of
exactly `k` bytes and preserves the concatenation; `gather(k, left=False)`
leaves a last chunk of exactly `k` bytes and preserves the concatenation
PROVIDED `1 ≤ k` (the right-end guarantee fails at `k = 0`, see the
counterexample). -/
theorem gather_splits_at_target (q : List Wind.Chunk) (k : Nat)
    (hk : k ≤ q.flatten.length) :
    ((Wind.FlexibleDeque.gather q k true).headI.length = k ∧
      (Wind.FlexibleDeque.gather q k true).flatten = q.flatten) ∧
    (1 ≤ k →
      (Wind.FlexibleDeque.gather q k false).getLastI.length = k ∧
      (Wind.FlexibleDeque.gather q k false).flatten = q.flatten) := by
  constructor
  · rcases eq_or_ne q [] with hq | hq
    · subst hq
      simp only [List.flatten_nil, List.length_nil, Nat.le_zero] at hk
      subst hk
      constructor
      · rfl
      · rfl
    · have h := Wind.FlexibleDeque.gatherLoop_left_spec k q 0 [] hq
        (by simp) (Nat.zero_le _) (by omega)
      constructor
      · simpa [Wind.FlexibleDeque.gather] using h.2.1
      · have := h.2.2
        simp only [List.flatten_nil, List.nil_append] at this
        simpa [Wind.FlexibleDeque.gather] using this
  · intro hk1
    have hq : q ≠ [] := by
      intro h
      subst h
      simp only [List.flatten_nil, List.length_nil, Nat.le_zero] at hk
      omega
    have hrq : q.reverse ≠ [] := by simpa using hq
    have h := Wind.FlexibleDeque.gatherLoop_right_spec k q.reverse 0 [] hrq
      (by simp) hk1
      (by rw [Wind.FlexibleDeque.length_flatten_reverse]; omega)
    constructor
    · have hg : Wind.FlexibleDeque.gather q k false =
          (Wind.FlexibleDeque.gatherLoop k false 0 [] q.reverse).reverse := by
        simp [Wind.FlexibleDeque.gather]
      rw [hg, Wind.FlexibleDeque.getLastI_reverse]
      exact h.2.1
    · have := h.2.2
      simp only [List.reverse_reverse, List.reverse_nil, List.flatten_nil,
        List.append_nil] at this
      simpa [Wind.FlexibleDeque.gather] using this

/-- Witness for `gather_splits_at_target` at the deque `[b'\x01',
b'\x02\x03']` with target `k = 2`. -/
theorem gather_splits_at_target_witness :
    (2 ≤ ([[1], [2, 3]] : List Wind.Chunk).flatten.length) ∧
    ((Wind.FlexibleDeque.gather [[1], [2, 3]] 2 true).headI.length = 2 ∧
      (Wind.FlexibleDeque.gather [[1], [2, 3]] 2 true).flatten =
        ([[1], [2, 3]] : List Wind.Chunk).flatten) ∧
    ((Wind.FlexibleDeque.gather [[1], [2, 3]] 2 false).getLastI.length = 2 ∧
      (Wind.FlexibleDeque.gather [[1], [2, 3]] 2 false).flatten =
        ([[1], [2, 3]] : List Wind.Chunk).flatten) := by
  have h := gather_splits_at_target [[1], [2, 3]] 2 (by decide)
  exact ⟨by decide, h.1, h.2 (by decide)⟩

namespace Wind.CaseInsensitiveDict

lemma storeGet_storeSet_self {V : Type} (store : Store V) (tk : String)
    (kv : String × V) : storeGet (storeSet store tk kv) tk = some kv := by
  induction store with
  | nil => simp [storeSet, storeGet]
  | cons e rest ih =>
    obtain ⟨tk', kv'⟩ := e
    by_cases h : tk' = tk
    · subst h
      simp [storeSet, storeGet]
    · simp [storeSet, storeGet, h, ih]

lemma storeSet_storeSet {V : Type} (store : Store V) (tk : String)
    (kv1 kv2 : String × V) :
    storeSet (storeSet store tk kv1) tk kv2 = storeSet store tk kv2 := by
  induction store with
  | nil => simp [storeSet]
  | cons e rest ih =>
    obtain ⟨tk', kv'⟩ := e
    by_cases h : tk' = tk
    · subst h
      simp [storeSet]
    · simp [storeSet, h, ih]

end Wind.CaseInsensitiveDict

/-- C4, counterexample: after `d['Club'] = 1; d['CLUB'] = 2`, iterating
the dict yields `['CLUB']` — the LAST-inserted original casing — because
`__setitem__` stores `(key, value)` with the key of the current call; the
claim's "first-inserted original casing" (`['Club']`) is wrong. -/
theorem iter_first_casing_counterexample :
    Wind.CaseInsensitiveDict.iterKeys
        (Wind.CaseInsensitiveDict.setitem
          (Wind.CaseInsensitiveDict.setitem
            ([] : Wind.CaseInsensitiveDict.Store Nat) "Club" 1) "CLUB" 2) ≠
      ["Club"] := by decide

/-- C4, amended: setting a header under one casing and reading it under
any other casing returns the same value; and when the same key is set
more than once under different casings, the store is as if only the LAST
set had happened, so iteration yields the last-inserted original casing
of that key. -/
theorem case_insensitive_get_and_last_casing {V : Type}
    (store : Wind.CaseInsensitiveDict.Store V) (k k' : String) (v : V)
    (hk : Wind.CaseInsensitiveDict.pyLower k' =
      Wind.CaseInsensitiveDict.pyLower k)
    (k1 k2 : String) (v1 v2 : V)
    (h12 : Wind.CaseInsensitiveDict.pyLower k1 =
      Wind.CaseInsensitiveDict.pyLower k2) :
    Wind.CaseInsensitiveDict.getitem
        (Wind.CaseInsensitiveDict.setitem store k v) k' = some v ∧
    Wind.CaseInsensitiveDict.iterKeys
        (Wind.CaseInsensitiveDict.setitem
          (Wind.CaseInsensitiveDict.setitem store k1 v1) k2 v2) =
      Wind.CaseInsensitiveDict.iterKeys
        (Wind.CaseInsensitiveDict.setitem store k2 v2) := by
  constructor
  · rw [Wind.CaseInsensitiveDict.getitem, hk,
      Wind.CaseInsensitiveDict.setitem,
      Wind.CaseInsensitiveDict.storeGet_storeSet_self]
    rfl
  · rw [Wind.CaseInsensitiveDict.setitem, Wind.CaseInsensitiveDict.setitem,
      h12, Wind.CaseInsensitiveDict.setitem,
      Wind.CaseInsensitiveDict.storeSet_storeSet]

/-- Witness for `case_insensitive_get_and_last_casing` at the store built
from `d['Club'] = 7`, read back as `d['CLub']`, and the double set
`d['Club'] = 1; d['CLUB'] = 2`. -/
theorem case_insensitive_get_and_last_casing_witness :
    (Wind.CaseInsensitiveDict.pyLower "CLub" =
      Wind.CaseInsensitiveDict.pyLower "Club") ∧
    Wind.CaseInsensitiveDict.getitem
        (Wind.CaseInsensitiveDict.setitem
          ([] : Wind.CaseInsensitiveDict.Store Nat) "Club" 7) "CLub" =
      some 7 ∧
    Wind.CaseInsensitiveDict.iterKeys
        (Wind.CaseInsensitiveDict.setitem
          (Wind.CaseInsensitiveDict.setitem
            ([] : Wind.CaseInsensitiveDict.Store Nat) "Club" 1) "CLUB" 2) =
      Wind.CaseInsensitiveDict.iterKeys
        (Wind.CaseInsensitiveDict.setitem
          ([] : Wind.CaseInsensitiveDict.Store Nat) "CLUB" 2) := by
  have h := case_insensitive_get_and_last_casing
    ([] : Wind.CaseInsensitiveDict.Store Nat) "Club" "CLub" 7 (by decide)
    "Club" "CLUB" 1 2 (by decide)
  exact ⟨by decide, h.1, h.2⟩

/-- C7: the selector chooses the most capable facility in priority order
kqueue/epoll (edge-triggered) over poll over select: with select plus an
edge-triggered facility available it picks an edge-triggered one; with
only select available it picks select; with none of the four available it
fails startup with `WindException('No available event driver')`. -/
theorem pick_priority (h : Wind.Host) :
    (h.hasSelect = true → (h.hasEpoll = true ∨ h.hasKqueue = true) →
      Wind.pick h = .ok .epoll ∨ Wind.pick h = .ok .kqueue) ∧
    (h.hasSelect = true → h.hasPoll = false → h.hasEpoll = false →
      h.hasKqueue = false → Wind.pick h = .ok .select) ∧
    (h.hasSelect = false → h.hasPoll = false → h.hasEpoll = false →
      h.hasKqueue = false →
      Wind.pick h = .error "No available event driver") := by
  obtain ⟨s, p, e, k⟩ := h
  cases s <;> cases p <;> cases e <;> cases k <;>
    simp [Wind.pick, Wind.Host.exposes, List.filter]

/-- Witness for `pick_priority` at three concrete hosts: select+poll+epoll
(a Linux host), select only, and an empty host. -/
theorem pick_priority_witness :
    (Wind.pick ⟨true, true, true, false⟩ = .ok .epoll ∨
      Wind.pick ⟨true, true, true, false⟩ = .ok .kqueue) ∧
    Wind.pick ⟨true, false, false, false⟩ = .ok .select ∧
    Wind.pick ⟨false, false, false, false⟩ =
      .error "No available event driver" :=
  ⟨(pick_priority ⟨true, true, true, false⟩).1 rfl (Or.inl rfl),
    (pick_priority ⟨true, false, false, false⟩).2.1 rfl rfl rfl rfl,
    (pick_priority ⟨false, false, false, false⟩).2.2 rfl rfl rfl rfl⟩

namespace Wind.BaseStream

lemma and_ERROR_ne_zero_iff (x : Nat) :
    x &&& Wind.PollEvents.ERROR ≠ 0 ↔ x.testBit 3 = true := by
  have h8 : Wind.PollEvents.ERROR = 2 ^ 3 := rfl
  rw [h8, Nat.and_two_pow]
  cases hx : x.testBit 3 <;> simp [hx]

end Wind.BaseStream

/-- C10: every reachable value of a stream's recorded `_handler_event`
that is not `None` has the `PollEvents.ERROR` bit set — the initial
attachment ORs `ERROR` into the requested mask and every widening
preserves it, so a stream is never recorded as interested in READ or
WRITE without ERROR. -/
theorem handler_event_error_invariant (ev : Option Nat)
    (hr : Wind.HandlerEventReachable ev) :
    ∀ e : Nat, ev = some e → e &&& Wind.PollEvents.ERROR ≠ 0 := by
  induction hr with
  | init =>
    intro e he
    simp at he
  | clear _ _ =>
    intro e he
    simp at he
  | @attach ev closed event_mask hprev ih =>
    intro e he
    rw [Wind.BaseStream.attach_stream_handler.eq_def] at he
    split at he
    · exact ih e he
    · cases ev with
      | none =>
        simp only [Option.some.injEq] at he
        subst he
        rw [Wind.BaseStream.and_ERROR_ne_zero_iff, Nat.testBit_or]
        simp only [Bool.or_eq_true]
        exact Or.inr (by decide)
      | some prior =>
        have hp : prior &&& Wind.PollEvents.ERROR ≠ 0 := ih prior rfl
        simp only at he
        split at he <;> simp only [Option.some.injEq] at he <;> subst he
        · rw [Wind.BaseStream.and_ERROR_ne_zero_iff, Nat.testBit_or]
          rw [Wind.BaseStream.and_ERROR_ne_zero_iff] at hp
          simp [hp]
        · exact hp

/-- Witness for `handler_event_error_invariant`: attaching a WRITE
interest to a fresh open stream records the mask `12 = WRITE | ERROR`,
which has the ERROR bit. -/
theorem handler_event_error_invariant_witness :
    (12 : Nat) &&& Wind.PollEvents.ERROR ≠ 0 :=
  handler_event_error_invariant _
    (Wind.HandlerEventReachable.attach false Wind.PollEvents.WRITE
      Wind.HandlerEventReachable.init) 12 (by decide)

/-- C2, code bug: writing `b'\x0a\x14'` (M = 2 bytes) to a fresh stream
whose fd consumes 1 byte and then reports EWOULDBLOCK leaves the write
buffer holding exactly `M - N = 1` byte, frozen, with the single recorded
reactor interest `WRITE | ERROR = 12` — but the subsequent WRITE-ready
event does NOT resume flushing: `_handle_write` calls
`self._process_write()` without the required `chunk` argument, the
resulting `TypeError` is swallowed by its `except Exception:` clause, and
the stream is closed with the completion callback never invoked (the run
counter stays `0` and the pending callback is dropped). -/
theorem write_backpressure_resume_code_bug :
    (Wind.BaseStream.write Wind.BaseStream.initState [10, 20]
        [.wrote 1, .wouldBlock]).map
      (fun s1 =>
        (s1.write_buffer, s1.frozen, s1.handler_event,
          s1.write_callback_runs,
          (Wind.BaseStream.on_write_ready s1).is_opened,
          (Wind.BaseStream.on_write_ready s1).write_callback_runs,
          (Wind.BaseStream.on_write_ready s1).write_callback)) =
      Except.ok ([[20]], true, some 12, 0, false, 0, false) := rfl

/-- C3, code bug: `_to_write_buffer` slices every block from index 0
(`chunk[0:i + self._write_chunk_size]` instead of
`chunk[i:i + self._write_chunk_size]`), contradicting its own docstring
("dividing `chunk` with `_write_chunk_size` bytes blocks").  For a chunk
of length `2 * 128 KiB` the buffered blocks are the 128 KiB prefix and
the WHOLE chunk, so the second block exceeds the 128 KiB block size and
the concatenation of the blocks has `3 * 128 KiB` bytes — it is not
byte-identical to the chunk. -/
theorem to_write_buffer_code_bug (chunk : Wind.Chunk)
    (hlen : chunk.length = 2 * Wind.BaseStream.write_chunk_size) :
    Wind.BaseStream.to_write_buffer Wind.BaseStream.write_chunk_size chunk =
      [chunk.take Wind.BaseStream.write_chunk_size, chunk] ∧
    (Wind.BaseStream.to_write_buffer Wind.BaseStream.write_chunk_size
        chunk).flatten.length = 3 * Wind.BaseStream.write_chunk_size ∧
    (Wind.BaseStream.to_write_buffer Wind.BaseStream.write_chunk_size
        chunk).flatten ≠ chunk := by
  have hW : Wind.BaseStream.write_chunk_size = 131072 := rfl
  have hne : chunk.isEmpty = false := by
    cases chunk with
    | nil =>
      rw [hW] at hlen
      simp at hlen
    | cons a t => rfl
  have hcount :
      (chunk.length + Wind.BaseStream.write_chunk_size - 1) /
        Wind.BaseStream.write_chunk_size = 2 := by
    rw [hlen, hW]
  have h2W : chunk.take
      (Wind.BaseStream.write_chunk_size + Wind.BaseStream.write_chunk_size) =
      chunk :=
    List.take_of_length_le (by omega)
  have hmain : Wind.BaseStream.to_write_buffer
      Wind.BaseStream.write_chunk_size chunk =
      [chunk.take Wind.BaseStream.write_chunk_size, chunk] := by
    rw [Wind.BaseStream.to_write_buffer, if_neg (by simp [hne]), hcount]
    simp [List.range', h2W]
  have hflatlen : (Wind.BaseStream.to_write_buffer
      Wind.BaseStream.write_chunk_size chunk).flatten.length =
      3 * Wind.BaseStream.write_chunk_size := by
    rw [hmain]
    simp [List.length_take, hlen]
    omega
  refine ⟨hmain, hflatlen, fun heq => ?_⟩
  rw [heq, hlen, hW] at hflatlen
  omega

/-- Witness for `to_write_buffer_code_bug` at the all-zero chunk of
length `2 * 128 KiB`. -/
theorem to_write_buffer_code_bug_witness :
    (List.replicate (2 * Wind.BaseStream.write_chunk_size) (0 : Nat)).length
      = 2 * Wind.BaseStream.write_chunk_size ∧
    (Wind.BaseStream.to_write_buffer Wind.BaseStream.write_chunk_size
        (List.replicate (2 * Wind.BaseStream.write_chunk_size) 0)).flatten ≠
      List.replicate (2 * Wind.BaseStream.write_chunk_size) 0 := by
  have h := to_write_buffer_code_bug
    (List.replicate (2 * Wind.BaseStream.write_chunk_size) 0) (by simp)
  exact ⟨by simp, h.2.2⟩

/-- C5, code bug: draining the pending events `[(5, READ), (7, WRITE)]`
with a handler registered only for fd 7 does not skip the handler-less
fd 5: `if handler is None:` only executes `pass`, the loop still calls
`handler(fd, event_mask)` on `None`, and the resulting `TypeError` is
re-raised by the `except TypeError:` clause, aborting the drain before
the fd-7 event (whose handler exists) is dispatched. -/
theorem drain_missing_handler_code_bug :
    Wind.PollLooper.drainEvents [7]
        [(5, Wind.PollEvents.READ), (7, Wind.PollEvents.WRITE)] =
      .typeErrorRaised [] := by decide

/-- C6, code bug: re-registering a tracked fd is an error in both the
Select and Kqueue drivers, and `Select.unregister` of an untracked fd is
a no-op — but `Kqueue.unregister` of an untracked fd raises `KeyError`
(its `self._events[fd]` subscript runs before the tolerant
`self._events.pop(fd, None)`), so unregister is not idempotent for the
Kqueue driver. -/
theorem unregister_contract_code_bug :
    Wind.Select.register ⟨[3], [], []⟩ 3 Wind.PollEvents.READ =
      .error .alreadyRegistered ∧
    Wind.Select.unregister ⟨[3], [], []⟩ 9 = ⟨[3], [], []⟩ ∧
    Wind.Kqueue.register ⟨[(3, 1)]⟩ 3 Wind.PollEvents.READ =
      .error .alreadyRegistered ∧
    Wind.Kqueue.unregister ⟨[]⟩ 5 = .error .keyError := by
  refine ⟨?_, ?_, ?_, ?_⟩ <;> rfl

/-- C8, counterexample: `read_bytes(-1, callback)` passes the
`isinstance(bytes_to_read, int)` check, so no error is raised and the
read is started with `_bytes_to_read = -1` — falsifying "every negative
integer n is rejected and no read is started for it". -/
theorem read_bytes_negative_counterexample :
    Wind.BaseStream.read_bytes (.int (-1)) = .ok (-1) := rfl

/-- C8, amended: `read_bytes` fails with the stream error exactly when
`n` is not an `int`; every integer — negative ones included — passes the
validation and the read is started. -/
theorem read_bytes_guard_amended :
    (∀ i : Int, Wind.BaseStream.read_bytes (.int i) = .ok i) ∧
    (∀ v : Wind.BaseStream.PyVal,
      Wind.BaseStream.isinstance_int v = false →
      Wind.BaseStream.read_bytes v =
        .error "`read_bytes` can only accept `int` param") := by
  constructor
  · intro i
    rfl
  · intro v hv
    cases v with
    | int i => simp [Wind.BaseStream.isinstance_int] at hv
    | str s => rfl
    | pyNone => rfl

/-- Witness for `read_bytes_guard_amended` at `n = -7` and at the
non-integer argument `'x'`. -/
theorem read_bytes_guard_amended_witness :
    Wind.BaseStream.read_bytes (.int (-7)) = .ok (-7) ∧
    Wind.BaseStream.isinstance_int (.str "x") = false ∧
    Wind.BaseStream.read_bytes (.str "x") =
      .error "`read_bytes` can only accept `int` param" :=
  ⟨read_bytes_guard_amended.1 (-7), rfl,
    read_bytes_guard_amended.2 (.str "x") rfl⟩

/-- C9, code bug: `_parse_header`'s only `except` clause catches
`IndexError`, but a request line with the wrong number of tokens
(`b'GET /'`) and a header line without the `': '` separator both raise
`ValueError` (tuple unpacking / `dict` over a 1-element sequence), which
escapes uncaught instead of becoming
`WindException('Invalid header on incoming HTTP request')`; a well-formed
header block parses into the expected request fields. -/
theorem parse_header_uncaught_value_error :
    Wind.HTTPHandler.parse_header ("GET /\r\n\r\n".toList) =
      Wind.HTTPHandler.HeaderOutcome.valueError ∧
    Wind.HTTPHandler.parse_header
        ("GET / HTTP/1.1\r\nNoSeparatorHere\r\n\r\n".toList) =
      Wind.HTTPHandler.HeaderOutcome.valueError ∧
    Wind.HTTPHandler.parse_header
        ("GET / HTTP/1.1\r\nHost: x\r\n\r\n".toList) =
      Wind.HTTPHandler.HeaderOutcome.ok "GET".toList "/".toList
        "HTTP/1.1".toList [("Host".toList, "x".toList)] := by
  refine ⟨?_, ?_, ?_⟩ <;> decide
